import Mathlib

/-!
Shallow embedding of the rustro trading-engine core (bar store, indicators,
position manager, risk manager, event bus, order manager) and proofs about
the behaviour its specification claims.

Conventions of the embedding:
* `f64` prices and percentages are modelled as exact rationals (`ℚ`);
  machine-float rounding is out of scope of the claims settled here.
* Stateful components become pure state-passing functions; the async
  runtime, locks and the actual disk/network I/O are dropped, but every
  state mutation and branch of the embedded functions follows the source.
* UUID generation is modelled by a fresh counter, and the broker by an
  oracle mapping the global call index to a result.
-/

namespace Rustro

/-- OHLCV bar (`src/types.rs`, `Bar`). The `open` price is renamed
`open_price` because `open` is a Lean keyword; timestamps are collapsed to
the millisecond integer field. -/
structure Bar where
  timestamp_ms : Int
  open_price : ℚ
  high : ℚ
  low : ℚ
  close : ℚ
  volume : Int
  bar_complete : Bool
deriving Repr, DecidableEq

/-! ## Indicators (`src/strategy/indicators.rs`) -/

/-- True Range series over consecutive bar pairs
(`calculate_adx`, lines 15-26). -/
def trValues (bars : List Bar) : List ℚ :=
  (bars.zip bars.tail).map fun pc =>
    max (pc.2.high - pc.2.low)
      (max |pc.2.high - pc.1.close| |pc.2.low - pc.1.close|)

/-- +DM series (`calculate_adx`, lines 28-36). -/
def plusDMs (bars : List Bar) : List ℚ :=
  (bars.zip bars.tail).map fun pc =>
    let upMove := pc.2.high - pc.1.high
    let downMove := pc.1.low - pc.2.low
    if upMove > downMove ∧ upMove > 0 then upMove else 0

/-- −DM series (`calculate_adx`, lines 38-45). -/
def minusDMs (bars : List Bar) : List ℚ :=
  (bars.zip bars.tail).map fun pc =>
    let upMove := pc.2.high - pc.1.high
    let downMove := pc.1.low - pc.2.low
    if downMove > upMove ∧ downMove > 0 then downMove else 0

/-- `wilder_smooth` (indicators.rs lines 76-90): seed with the simple
average of the first `period` values, then apply Wilder's recursion over
the remainder, returning only the final smoothed value. -/
def wilder_smooth (values : List ℚ) (period : Nat) : Option ℚ :=
  if values.length < period then none
  else
    let seed := (values.take period).sum / (period : ℚ)
    some (List.foldl
      (fun s v => (((period : ℚ) - 1) * s + v) / (period : ℚ))
      seed (values.drop period))

/-- `calculate_adx` (indicators.rs lines 5-73). Note the source returns the
final DX as the ADX value (lines 67-70). -/
def calculate_adx (bars : List Bar) (period : Nat) :
    Option (ℚ × ℚ × ℚ) :=
  if bars.length < period + 1 then none
  else
    match wilder_smooth (trValues bars) period,
          wilder_smooth (plusDMs bars) period,
          wilder_smooth (minusDMs bars) period with
    | some str, some spd, some smd =>
        let plus_di := spd / str * 100
        let minus_di := smd / str * 100
        let di_sum := plus_di + minus_di
        if di_sum = 0 then none
        else
          let dx := |plus_di - minus_di| / di_sum * 100
          some (dx, plus_di, minus_di)
    | _, _, _ => none

/-- Running Wilder smoothing: the whole sequence of smoothed values from
the seed onward (one value per input index ≥ `period`). Used to state the
faithful ADX the spec mandates. -/
def wilderSmoothSeries (values : List ℚ) (period : Nat) : List ℚ :=
  if values.length < period then []
  else
    (values.drop period).scanl
      (fun s v => (((period : ℚ) - 1) * s + v) / (period : ℚ))
      ((values.take period).sum / (period : ℚ))

/-- DX value from smoothed TR/+DM/−DM at one step (spec §4.5). -/
def dxOf (str spd smd : ℚ) : ℚ :=
  let plus_di := spd / str * 100
  let minus_di := smd / str * 100
  |plus_di - minus_di| / (plus_di + minus_di) * 100

/-- The DX series, one value per smoothing step. -/
def dxSeries (bars : List Bar) (period : Nat) : List ℚ :=
  ((wilderSmoothSeries (trValues bars) period).zip
    ((wilderSmoothSeries (plusDMs bars) period).zip
      (wilderSmoothSeries (minusDMs bars) period))).map
    fun t => dxOf t.1 t.2.1 t.2.2

/-- ADX as the spec states it (§4.5): the DX series Wilder-smoothed over
`period` values, seeded by their simple average. This is the comparison
definition for the refinement claim about `calculate_adx`. -/
def calculate_adx_wilder (bars : List Bar) (period : Nat) : Option ℚ :=
  if bars.length < period + 1 then none
  else wilder_smooth (dxSeries bars period) period

/-- `calculate_ema` (indicators.rs lines 131-153). The source folds over
`bars.iter().rev().take(period).skip(period)`, kept verbatim here as
`(bars.reverse.take period).drop period`. -/
def calculate_ema (bars : List Bar) (period : Nat) : Option ℚ :=
  if bars.length < period then none
  else
    let sma := (((bars.reverse.take period).map Bar.close).sum) / (period : ℚ)
    let multiplier : ℚ := 2 / ((period : ℚ) + 1)
    some (List.foldl (fun ema c => (c - ema) * multiplier + ema) sma
      (((bars.reverse.take period).drop period).map Bar.close))

/-- `calculate_sma` (indicators.rs lines 178-190). -/
def calculate_sma (bars : List Bar) (period : Nat) : Option ℚ :=
  if bars.length < period then none
  else some ((((bars.reverse.take period).map Bar.close).sum) / (period : ℚ))

/-- EMA as the spec states it (§4.5): seed with the SMA of the first
`period` closes, then fold each subsequent close with multiplier
`2/(period+1)`. Comparison definition for the claim about
`calculate_ema`. -/
def calculate_ema_seeded (bars : List Bar) (period : Nat) : Option ℚ :=
  if bars.length < period then none
  else
    let closes := bars.map Bar.close
    let seed := (closes.take period).sum / (period : ℚ)
    let multiplier : ℚ := 2 / ((period : ℚ) + 1)
    some (List.foldl (fun ema c => (c - ema) * multiplier + ema) seed
      (closes.drop period))

/-! ## Bar store (`src/data/bar_store.rs`) -/

/-- State of `HybridBarStore`: in-memory ring, its capacity, the on-disk
append log (modelled as the list of bars written), and the total-bars
counter. The disk step of `append` is modelled as always succeeding. -/
structure HybridBarStore where
  memory_buffer : List Bar
  memory_capacity : Nat
  disk : List Bar
  total_bars : Nat
deriving Repr, DecidableEq

/-- `HybridBarStore::append` (bar_store.rs lines 42-63): write the bar to
disk, evict the oldest in-memory bar when full, push the new bar. -/
def HybridBarStore.append (st : HybridBarStore) (bar : Bar) :
    HybridBarStore :=
  let mem := if st.memory_capacity ≤ st.memory_buffer.length
             then st.memory_buffer.tail else st.memory_buffer
  { st with
    disk := st.disk ++ [bar]
    memory_buffer := mem ++ [bar]
    total_bars := st.total_bars + 1 }

/-- Last `n` elements of a list, oldest first — the meaning of
`iter().rev().take(n).rev()` in the source. -/
def lastN (n : Nat) (xs : List Bar) : List Bar :=
  xs.drop (xs.length - n)

/-- `HybridBarStore::load_from_disk_and_memory` (bar_store.rs lines
118-142): read every bar on disk, extend with the in-memory buffer, keep
the last `n`. -/
def HybridBarStore.load_from_disk_and_memory (st : HybridBarStore)
    (n : Nat) : List Bar :=
  lastN n (st.disk ++ st.memory_buffer)

/-- `HybridBarStore::get_recent` (bar_store.rs lines 66-80). -/
def HybridBarStore.get_recent (st : HybridBarStore) (n : Nat) : List Bar :=
  if n ≤ st.memory_buffer.length then lastN n st.memory_buffer
  else st.load_from_disk_and_memory n

/-! ## Position manager (`src/positions/manager.rs`) -/

/-- The configuration fields `PositionManager::update_position` reads
(`src/types.rs`, `Config`). -/
structure PosConfig where
  use_trailing_stop : Bool
  trail_activate_pnl_pct : ℚ
  trail_gap_pct : ℚ
deriving Repr, DecidableEq

/-- The fields of `Position` (`src/types.rs`) that `update_position`
reads or writes; identification and timestamp fields are dropped. -/
structure Position where
  entry_price : ℚ
  quantity : Int
  stop_loss : ℚ
  target : Option ℚ
  trailing_stop : Option ℚ
  trailing_active : Bool
  current_price : ℚ
  pnl : ℚ
  pnl_pct : ℚ
deriving Repr, DecidableEq

/-- The state effect of `PositionManager::update_position`
(manager.rs lines 72-139): price/PNL refresh, trailing-stop ratchet
(lines 91-114), then trailing-stop activation (lines 116-139). The
position is mutated in place in the source before any early return, so
the new position state is independent of the returned exit reason. -/
def updatePosition (cfg : PosConfig) (p : Position) (current_price : ℚ) :
    Position :=
  let priceDiff := current_price - p.entry_price
  let p := { p with
    current_price := current_price
    pnl := priceDiff * (p.quantity : ℚ)
    pnl_pct := priceDiff / p.entry_price * 100 }
  let p :=
    if cfg.use_trailing_stop ∧ p.trailing_active = true then
      match p.trailing_stop with
      | some currentTrail =>
          let newTrail := current_price * (1 - cfg.trail_gap_pct)
          if newTrail > currentTrail then
            { p with trailing_stop := some newTrail }
          else p
      | none => p
    else p
  if cfg.use_trailing_stop ∧ p.trailing_active = false ∧
      p.pnl_pct ≥ cfg.trail_activate_pnl_pct * 100 then
    { p with
      trailing_active := true
      trailing_stop := some (current_price * (1 - cfg.trail_gap_pct)) }
  else p

/-- Exit reasons returned by `update_position`. -/
inductive ExitReason
  | stopLoss
  | trailingStop
  | targetReached
deriving Repr, DecidableEq

/-- The exit reason `update_position` returns (manager.rs lines 141-208),
evaluated on the already-updated position state. -/
def updateExitReason (cfg : PosConfig) (p0 : Position)
    (current_price : ℚ) : Option ExitReason :=
  let p := updatePosition cfg p0 current_price
  if current_price ≤ p.stop_loss then some ExitReason.stopLoss
  else
    let trailHit : Bool :=
      match p.trailing_stop with
      | some t => p.trailing_active && decide (current_price ≤ t)
      | none => false
    if trailHit then some ExitReason.trailingStop
    else
      match p.target with
      | some tgt =>
          if current_price ≥ tgt then some ExitReason.targetReached
          else none
      | none => none

/-! ## Risk manager (`src/risk/manager.rs`) -/

/-- The configuration fields the risk manager reads
(`src/types.rs`, `Config`). -/
structure RiskConfig where
  vix_spike_threshold : ℚ
  vix_resume_threshold : ℚ
  daily_loss_limit_pct : ℚ
  max_positions : Nat
  consecutive_loss_limit : Nat
deriving Repr, DecidableEq

/-- Events published by the risk manager, restricted to those `update_vix`
emits; payload fields follow the source (`src/events/types.rs`). -/
inductive RiskEvent
  | vixDataReceived (vix : ℚ)
  | vixSpike (vix : ℚ) (threshold : ℚ) (positions_to_exit : List String)
  | exitSignalGenerated (position_id : String) (primary_reason : String)
      (priority : Nat)
  | vixNormalResumed (vix : ℚ) (threshold : ℚ)
deriving Repr, DecidableEq

/-- `RiskManager::update_vix` (risk/manager.rs lines 45-139): given the
open position ids and the current breaker flag, returns the new flag and
the published events in order. -/
def update_vix (cfg : RiskConfig) (openPositions : List String)
    (breakerActive : Bool) (vix : ℚ) : Bool × List RiskEvent :=
  let events := [RiskEvent.vixDataReceived vix]
  if vix ≥ cfg.vix_spike_threshold then
    if breakerActive then (breakerActive, events)
    else
      (true,
        events ++
          [RiskEvent.vixSpike vix cfg.vix_spike_threshold openPositions] ++
          openPositions.map
            (fun pid => RiskEvent.exitSignalGenerated pid "VIX_SPIKE" 1))
  else if vix < cfg.vix_resume_threshold then
    if breakerActive then
      (false,
        events ++ [RiskEvent.vixNormalResumed vix cfg.vix_resume_threshold])
    else (breakerActive, events)
  else (breakerActive, events)

/-- The mutable risk/position state `pre_entry_risk_check` consults. -/
structure RiskState where
  circuit_breaker_active : Bool
  daily_pnl : ℚ
  daily_start_capital : ℚ
  consecutive_losses : Nat
  open_positions : List String
deriving Repr, DecidableEq

/-- The breach condition of `RiskManager::check_daily_loss_limit`
(risk/manager.rs lines 148-158): `daily_pnl/start_capital·100 ≤ −limit`. -/
def dailyLossBreached (cfg : RiskConfig) (st : RiskState) : Bool :=
  decide (st.daily_pnl / st.daily_start_capital * 100
    ≤ -cfg.daily_loss_limit_pct)

/-- The typed errors `pre_entry_risk_check` can return
(`src/error.rs` variants used in risk/manager.rs lines 269-301). -/
inductive RiskError
  | riskCheckFailed
  | dailyLossLimit
  | positionLimitExceeded
deriving Repr, DecidableEq

/-- `RiskManager::pre_entry_risk_check` (risk/manager.rs lines 269-301):
circuit breaker, then daily loss limit, then max positions. -/
def pre_entry_risk_check (cfg : RiskConfig) (st : RiskState) :
    Except RiskError Unit :=
  if st.circuit_breaker_active then Except.error RiskError.riskCheckFailed
  else if dailyLossBreached cfg st then
    Except.error RiskError.dailyLossLimit
  else if cfg.max_positions ≤ st.open_positions.length then
    Except.error RiskError.positionLimitExceeded
  else Except.ok ()

/-- `RiskManager::check_consecutive_losses` (risk/manager.rs lines
200-220): a win resets the counter; a loss increments it and reports
whether the limit is reached. Returns (limit_hit, new counter). -/
def check_consecutive_losses (cfg : RiskConfig) (losses : Nat)
    (trade_result : Bool) : Bool × Nat :=
  if trade_result then (false, 0)
  else
    let losses := losses + 1
    (decide (cfg.consecutive_loss_limit ≤ losses), losses)

/-! ## Event bus (`src/events/event_bus.rs`) -/

/-- An event as the bus sees it (`src/events/types.rs`, `Event`): the
event type is collapsed to a tag and the payload to an identifier, since
`publish` inspects only the idempotency key. -/
structure MEvent where
  event_type : Nat
  idempotency_key : String
  payload : Nat
deriving Repr, DecidableEq

/-- Event-bus state: the processed-keys set, the durable event log
(modelled as the list of logged events, writes always succeed) and the
processing queue. -/
structure EventBusState where
  processed_events : List String
  event_log : List MEvent
  queue : List MEvent
deriving Repr, DecidableEq

/-- The error `publish` returns on a duplicate key (`src/error.rs`,
`DuplicateEvent`). -/
inductive BusError
  | duplicateEvent (key : String)
deriving Repr, DecidableEq

/-- `EventBus::publish` (event_bus.rs lines 56-82): reject a seen
idempotency key with `DuplicateEvent` leaving the state untouched;
otherwise record the key, append the event to the durable log and enqueue
it for the consumer. -/
def publish (st : EventBusState) (e : MEvent) :
    Except BusError Unit × EventBusState :=
  if e.idempotency_key ∈ st.processed_events then
    (Except.error (BusError.duplicateEvent e.idempotency_key), st)
  else
    (Except.ok (),
      { st with
        processed_events := e.idempotency_key :: st.processed_events
        event_log := st.event_log ++ [e]
        queue := st.queue ++ [e] })

/-- How often handlers observe event `e`: the consumer task
(event_bus.rs lines 85-130) drains the queue and hands each dequeued
event to its handlers exactly once, so deliveries of `e` equal its
multiplicity in the queue. -/
def deliveriesOf (st : EventBusState) (e : MEvent) : Nat :=
  st.queue.count e

/-! ## Order manager (`src/orders/manager.rs`) -/

/-- Order status (`src/types.rs`, `OrderStatus`). -/
inductive OrderStatus
  | pending
  | submitted
  | partiallyFilled
  | filled
  | rejected
  | cancelled
  | failed
deriving Repr, DecidableEq

/-- The fields of `Order` (`src/types.rs`) that `place_order` writes;
order ids (source: UUID strings) are modelled as naturals, and symbol,
side, quantity and timestamps are dropped as pass-through data. -/
structure Order where
  order_id : Nat
  broker_order_id : Option Nat
  status : OrderStatus
  attempts : Nat
  retry_count : Nat
  limit_price : ℚ
  idempotency_key : String
deriving Repr, DecidableEq

/-- The configuration fields `place_order` reads. -/
structure OMConfig where
  order_max_retries : Nat
  order_retry_steps_pct : List ℚ
deriving Repr, DecidableEq

/-- Order-manager state: the orders map and the idempotency tracker
(association lists, most recent insertion first), the UUID source
modelled as a counter, and the number of broker invocations made so
far. -/
structure OMState where
  orders : List (Nat × Order)
  processed_intents : List (String × Nat)
  next_uuid : Nat
  broker_calls : Nat
deriving Repr, DecidableEq

/-- First-match association-list lookup (the read on the
`processed_intents` hash map). -/
def alookup (k : String) : List (String × Nat) → Option Nat
  | [] => none
  | (k', v) :: rest => if k' = k then some v else alookup k rest

/-- The error `place_order` fails with (`src/error.rs`,
`OrderPlacementFailed`). -/
inductive OMError
  | orderPlacementFailed
deriving Repr, DecidableEq

/-- The retry loop of `place_order` (orders/manager.rs lines 103-230).
`br` maps the global broker-call index to `some broker_order_id` or
`none` for a failure; `attempt` is the current attempt index and `fuel`
the number of retries still allowed, so the source's
`attempt == max_retries` final-failure test is `fuel = 0`. Each
iteration stores the order with the current attempt count and price,
walks the price on a retry (lines 115-147), then calls the broker
(lines 149-229). -/
def placeAttempts (br : Nat → Option Nat) (cfg : OMConfig)
    (initial_price : ℚ) (key : String) (oid : Nat) (ord : Order)
    (current_price : ℚ) (attempt : Nat) (fuel : Nat) (st : OMState) :
    Except OMError Nat × OMState :=
  let ord := { ord with
    attempts := attempt
    retry_count := attempt
    limit_price := current_price }
  let st := { st with orders := (oid, ord) :: st.orders }
  let current_price :=
    if 0 < attempt ∧ attempt ≤ cfg.order_retry_steps_pct.length then
      initial_price * (1 + cfg.order_retry_steps_pct.getD (attempt - 1) 0 / 100)
    else current_price
  let callIdx := st.broker_calls
  let st := { st with broker_calls := st.broker_calls + 1 }
  match br callIdx with
  | some broker_order_id =>
      let ord := { ord with
        broker_order_id := some broker_order_id
        status := OrderStatus.submitted
        limit_price := current_price }
      (Except.ok oid,
        { st with
          orders := (oid, ord) :: st.orders
          processed_intents := (key, oid) :: st.processed_intents })
  | none =>
      match fuel with
      | 0 =>
          let ord := { ord with status := OrderStatus.failed }
          (Except.error OMError.orderPlacementFailed,
            { st with orders := (oid, ord) :: st.orders })
      | fuel' + 1 =>
          placeAttempts br cfg initial_price key oid ord current_price
            (attempt + 1) fuel' st

/-- `OrderManager::place_order` (orders/manager.rs lines 40-235): return
the recorded order id when the idempotency key is known (lines 49-56);
otherwise allocate a fresh order id, store the pending order and run the
attempt loop. The idempotency key is recorded only on a successful
broker placement (lines 170-174). -/
def place_order (br : Nat → Option Nat) (cfg : OMConfig) (key : String)
    (initial_price : ℚ) (st : OMState) : Except OMError Nat × OMState :=
  match alookup key st.processed_intents with
  | some existing_order_id => (Except.ok existing_order_id, st)
  | none =>
      let oid := st.next_uuid
      let ord : Order := {
        order_id := oid
        broker_order_id := none
        status := OrderStatus.pending
        attempts := 0
        retry_count := 0
        limit_price := initial_price
        idempotency_key := key }
      let st := { st with
        next_uuid := st.next_uuid + 1
        orders := (oid, ord) :: st.orders }
      placeAttempts br cfg initial_price key oid ord initial_price 0
        cfg.order_max_retries st

/-! ## Concrete inputs used by counterexamples and witnesses -/

/-- A completed bar with the given timestamp, high, low and close. -/
def mkBar (t : Int) (h l c : ℚ) : Bar :=
  ⟨t, 0, h, l, c, 0, true⟩

/-- Position-manager configuration reading `trail_activate_pnl_pct = 10`
and `trail_gap_pct = 0.05` — the literal parameter values of spec
scenario S2. -/
def posCfgPct : PosConfig := ⟨true, 10, 1/20⟩

/-- The same configuration with the activation parameter as the fraction
`0.10`, the value under which the source activates at +10% PNL. -/
def posCfgFrac : PosConfig := ⟨true, 1/10, 1/20⟩

/-- A freshly opened position entered at 100.0 with no trailing stop. -/
def c1Pos : Position := ⟨100, 50, 70, none, none, false, 100, 0, 0⟩

/-- An open position whose trailing stop is active at 95. -/
def c9Pos : Position := ⟨100, 50, 70, none, some 95, true, 100, 0, 0⟩

/-- Three pairwise-distinct bars for the bar-store scenario. -/
def c2b (k : Int) : Bar := mkBar k 1 1 1

/-- A bar store of memory capacity 2 after appending the bars with
timestamps 1, 2, 3 in order. -/
def c2Store : HybridBarStore :=
  (((⟨[], 2, [], 0⟩ : HybridBarStore).append (c2b 1)).append
    (c2b 2)).append (c2b 3)

/-- Six bars with direction changes, so that successive DX values
differ. -/
def c3Bars : List Bar :=
  [ mkBar 0 10 9 (19/2)
  , mkBar 1 11 10 (21/2)
  , mkBar 2 12 11 (23/2)
  , mkBar 3 (23/2) 10 (51/5)
  , mkBar 4 (25/2) (21/2) 12
  , mkBar 5 13 12 (25/2) ]

/-- Three bars whose closes are 1, 2, 4. -/
def c7Bars : List Bar := [mkBar 0 1 1 1, mkBar 1 2 2 2, mkBar 2 4 4 4]

/-- Risk configuration: spike 25, resume 20, daily loss limit 2%,
max 3 positions, 3 consecutive losses. -/
def c8Cfg : RiskConfig := ⟨25, 20, 2, 3, 3⟩

/-- Risk state with the consecutive-loss cap hit (5 ≥ 3) but breaker
off, no loss and no open position. -/
def c4St : RiskState := ⟨false, 0, 1000000, 5, []⟩

/-- Two events with distinct types and payloads but the same
idempotency key. -/
def e1w : MEvent := ⟨1, "k", 0⟩

/-- See `e1w`. -/
def e2w : MEvent := ⟨2, "k", 1⟩

/-- An empty event-bus state. -/
def busSt0 : EventBusState := ⟨[], [], []⟩

/-- A broker that rejects the first placement attempt and accepts the
second. -/
def retryBroker : Nat → Option Nat := fun i => if i = 0 then none else some 77

/-- A broker that accepts every placement. -/
def okBroker : Nat → Option Nat := fun _ => some 9

/-- A broker that rejects every placement. -/
def failBroker : Nat → Option Nat := fun _ => none

/-- Order-manager configuration: one retry with a +1% price step. -/
def omCfg : OMConfig := ⟨1, [1]⟩

/-- An empty order-manager state. -/
def omSt0 : OMState := ⟨[], [], 0, 0⟩

/-! ## Claim theorems -/

/-- C1, counterexample: with `trail_activate_pnl_pct = 10` and
`trail_gap_pct = 0.05`, a position entered at 100.0 and updated to 110
reaches `pnl_pct = 10 ≥ trail_activate_pnl_pct`, yet `update_position`
does not activate trailing and sets no trail stop — the source compares
`pnl_pct` against `trail_activate_pnl_pct * 100`. -/
theorem c1_activation_counterexample :
    (updatePosition posCfgPct c1Pos 110).pnl_pct ≥
      posCfgPct.trail_activate_pnl_pct ∧
    (updatePosition posCfgPct c1Pos 110).trailing_active = false ∧
    (updatePosition posCfgPct c1Pos 110).trailing_stop = none := by
  refine ⟨?_, ?_, ?_⟩ <;> norm_num [updatePosition, posCfgPct, c1Pos]

/-- C1, amended: for every open position with trailing enabled and not
yet active, `update_position` at a price whose `pnl_pct` is at least
`trail_activate_pnl_pct * 100` (the config value is a fraction of the
entry price) sets `trailing_active` and sets the trail stop to
`current_price * (1 - trail_gap_pct)`. -/
theorem c1_trailing_activation (cfg : PosConfig) (p : Position) (cp : ℚ)
    (henabled : cfg.use_trailing_stop = true)
    (hinactive : p.trailing_active = false)
    (hthresh : (cp - p.entry_price) / p.entry_price * 100 ≥
      cfg.trail_activate_pnl_pct * 100) :
    (updatePosition cfg p cp).trailing_active = true ∧
    (updatePosition cfg p cp).trailing_stop =
      some (cp * (1 - cfg.trail_gap_pct)) := by
  unfold updatePosition
  simp [henabled, hinactive, hthresh]

/-- C1, witness: with the activation parameter as the fraction `0.10`,
the entry-100 position updated to 110 activates trailing with trail stop
`104.5 = 209/2`. -/
theorem c1_trailing_activation_witness :
    (updatePosition posCfgFrac c1Pos 110).trailing_active = true ∧
    (updatePosition posCfgFrac c1Pos 110).trailing_stop = some (209/2) := by
  have h := c1_trailing_activation posCfgFrac c1Pos 110 rfl rfl
    (by norm_num [posCfgFrac, c1Pos])
  exact ⟨h.1, by rw [h.2]; norm_num [posCfgFrac]⟩

/-- C2: after appending three distinct bars into a store of memory
capacity 2, `get_recent 3` takes the disk-plus-memory merge path and
returns the newest bar twice, out of order — not the last three appended
bars — because every in-memory bar is already on disk. -/
theorem c2_get_recent_duplicates :
    c2Store.get_recent 3 = [c2b 3, c2b 2, c2b 3] ∧
    c2Store.get_recent 3 ≠ [c2b 1, c2b 2, c2b 3] ∧
    (c2Store.get_recent 3).count (c2b 3) = 2 := by
  decide

/-- C7: `calculate_ema` folds over an always-empty iterator
(`rev().take(period).skip(period)`), so on every input it returns exactly
the SMA of the last `period` closes; on closes `[1, 2, 4]` with period 2
it returns 3, whereas the SMA-seeded EMA the spec mandates is `19/6`. -/
theorem c7_ema_degenerates_to_sma :
    (∀ (bars : List Bar) (period : Nat),
      calculate_ema bars period = calculate_sma bars period) ∧
    calculate_ema c7Bars 2 = some 3 ∧
    calculate_ema_seeded c7Bars 2 = some (19/6) ∧
    (3 : ℚ) ≠ 19/6 := by
  refine ⟨?_,
    by norm_num [calculate_ema, c7Bars, mkBar],
    by norm_num [calculate_ema_seeded, c7Bars, mkBar],
    by norm_num⟩
  intro bars period
  unfold calculate_ema calculate_sma
  by_cases h : bars.length < period
  · simp [h]
  · have hd : (bars.reverse.take period).drop period = [] :=
      List.drop_eq_nil_of_le (List.length_take_le period bars.reverse)
    simp [h, hd]

/-- C3: on six concrete bars with period 2, `calculate_adx` returns ADX
`= 200/3`, which is exactly the final DX value, while the Wilder-smoothed
DX over the period that the spec mandates is `175/3` — the source
substitutes the current DX for ADX. -/
theorem c3_adx_is_unsmoothed_dx :
    calculate_adx c3Bars 2 = some (200/3, 1250/29, 250/29) ∧
    calculate_adx_wilder c3Bars 2 = some (175/3) ∧
    (200/3 : ℚ) ≠ 175/3 := by
  refine ⟨?_, ?_, by norm_num⟩
  · norm_num [calculate_adx, c3Bars, mkBar, trValues, plusDMs, minusDMs,
      wilder_smooth, max_def, abs]
  · norm_num [calculate_adx_wilder, dxSeries, dxOf, wilderSmoothSeries,
      c3Bars, mkBar, trValues, plusDMs, minusDMs, wilder_smooth,
      max_def, abs]

/-- C4, counterexample: with the consecutive-loss cap hit (5 losses
against a limit of 3) but breaker off, no loss and no open position,
`pre_entry_risk_check` still returns success — the source never consults
the consecutive-loss counter there. -/
theorem c4_consecutive_losses_counterexample :
    c8Cfg.consecutive_loss_limit ≤ c4St.consecutive_losses ∧
    pre_entry_risk_check c8Cfg c4St = Except.ok () := by
  refine ⟨by decide, ?_⟩
  norm_num [pre_entry_risk_check, dailyLossBreached, c8Cfg, c4St]

/-- C4, amended: `pre_entry_risk_check` returns a typed risk error if and
only if the circuit breaker is active, the daily loss limit is breached,
or the open-positions count is not below `max_positions`; the
consecutive-loss cap is not part of the check. -/
theorem c4_pre_entry_risk_check_iff (cfg : RiskConfig) (st : RiskState) :
    (∃ e, pre_entry_risk_check cfg st = Except.error e) ↔
      (st.circuit_breaker_active = true ∨ dailyLossBreached cfg st = true ∨
        cfg.max_positions ≤ st.open_positions.length) := by
  unfold pre_entry_risk_check
  split_ifs <;> simp [*]

/-- C8: one step of `update_vix` under the hysteresis invariant
`resume < spike`: the breaker turns on exactly on `vix ≥ spike` while
inactive — publishing `VixSpike` and a priority-1 (`Mandatory`) exit
signal with reason `VIX_SPIKE` for every open position — turns off
exactly on `vix < resume` while active — publishing `VixNormalResumed` —
and never changes in the band `resume ≤ vix < spike`. -/
theorem c8_vix_circuit_breaker (cfg : RiskConfig)
    (positions : List String) (active : Bool) (vix : ℚ)
    (hhys : cfg.vix_resume_threshold < cfg.vix_spike_threshold) :
    (active = false →
      ((update_vix cfg positions active vix).1 = true ↔
        cfg.vix_spike_threshold ≤ vix)) ∧
    (active = false → cfg.vix_spike_threshold ≤ vix →
      RiskEvent.vixSpike vix cfg.vix_spike_threshold positions ∈
        (update_vix cfg positions active vix).2 ∧
      ∀ pid ∈ positions,
        RiskEvent.exitSignalGenerated pid "VIX_SPIKE" 1 ∈
          (update_vix cfg positions active vix).2) ∧
    (active = true →
      ((update_vix cfg positions active vix).1 = false ↔
        vix < cfg.vix_resume_threshold)) ∧
    (active = true → vix < cfg.vix_resume_threshold →
      RiskEvent.vixNormalResumed vix cfg.vix_resume_threshold ∈
        (update_vix cfg positions active vix).2) ∧
    (cfg.vix_resume_threshold ≤ vix → vix < cfg.vix_spike_threshold →
      (update_vix cfg positions active vix).1 = active) := by
  refine ⟨?_, ?_, ?_, ?_, ?_⟩
  · rintro rfl
    by_cases hs : cfg.vix_spike_threshold ≤ vix
    · simp [update_vix, ge_iff_le, hs]
    · by_cases hr : vix < cfg.vix_resume_threshold <;>
        simp [update_vix, ge_iff_le, hs, hr]
  · rintro rfl hs
    constructor
    · simp [update_vix, ge_iff_le, hs, List.mem_append, List.mem_map]
    · intro pid hpid
      simp [update_vix, ge_iff_le, hs, List.mem_append, List.mem_map]
      exact hpid
  · rintro rfl
    by_cases hs : cfg.vix_spike_threshold ≤ vix
    · simp only [update_vix, ge_iff_le, hs, if_true, if_pos]
      simp only [Bool.true_eq_false, false_iff, not_lt]
      exact le_trans hhys.le hs
    · by_cases hr : vix < cfg.vix_resume_threshold <;>
        simp [update_vix, ge_iff_le, hs, hr]
  · rintro rfl hr
    have hs : ¬ cfg.vix_spike_threshold ≤ vix :=
      not_le.mpr (hr.trans hhys)
    simp [update_vix, ge_iff_le, hs, hr]
  · intro hge hlt
    have hs : ¬ cfg.vix_spike_threshold ≤ vix := not_le.mpr hlt
    have hr : ¬ vix < cfg.vix_resume_threshold := not_lt.mpr hge
    cases active <;> simp [update_vix, ge_iff_le, hs, hr]

/-- C8, witness: with spike 25 / resume 20, a VIX update to 32 while the
breaker is off with one open position activates the breaker and publishes
the spike event and a mandatory exit signal for that position. -/
theorem c8_vix_circuit_breaker_witness :
    (update_vix c8Cfg ["p1"] false 32).1 = true ∧
    RiskEvent.vixSpike 32 c8Cfg.vix_spike_threshold ["p1"] ∈
      (update_vix c8Cfg ["p1"] false 32).2 ∧
    RiskEvent.exitSignalGenerated "p1" "VIX_SPIKE" 1 ∈
      (update_vix c8Cfg ["p1"] false 32).2 := by
  have h := c8_vix_circuit_breaker c8Cfg ["p1"] false 32
    (by norm_num [c8Cfg])
  have hs : c8Cfg.vix_spike_threshold ≤ (32 : ℚ) := by norm_num [c8Cfg]
  exact ⟨(h.1 rfl).mpr hs, (h.2.1 rfl hs).1,
    (h.2.1 rfl hs).2 "p1" (by simp)⟩

/-- Helper: once a position's trailing stop is active, `update_position`
keeps it active, and the stored trail stop either stays unchanged or is
replaced by the strictly larger value
`current_price * (1 - trail_gap_pct)`. -/
theorem updatePosition_active_step (cfg : PosConfig) (p : Position)
    (cp : ℚ) (hact : p.trailing_active = true) :
    (updatePosition cfg p cp).trailing_active = true ∧
    ((updatePosition cfg p cp).trailing_stop = p.trailing_stop ∨
      ∃ t, p.trailing_stop = some t ∧
        (updatePosition cfg p cp).trailing_stop =
          some (cp * (1 - cfg.trail_gap_pct)) ∧
        t < cp * (1 - cfg.trail_gap_pct)) := by
  unfold updatePosition
  by_cases hu : cfg.use_trailing_stop = true
  · rcases hts : p.trailing_stop with _ | t
    · simp [hu, hact, hts]
    · by_cases hgt : cp * (1 - cfg.trail_gap_pct) > t
      · simp [hu, hact, hts, hgt]
      · simp [hu, hact, hts, hgt]
  · have hu' : cfg.use_trailing_stop = false := by
      revert hu; cases cfg.use_trailing_stop <;> simp
    simp [hu', hact]

/-- Helper: with trailing active and a stored trail stop, the trail stop
after `update_position` is at least the old one. -/
theorem updatePosition_trail_stop_le (cfg : PosConfig) (p : Position)
    (cp t : ℚ) (hact : p.trailing_active = true)
    (hts : p.trailing_stop = some t) :
    ∃ t', (updatePosition cfg p cp).trailing_stop = some t' ∧ t ≤ t' := by
  rcases updatePosition_active_step cfg p cp hact with ⟨_, hstep | hstep⟩
  · exact ⟨t, hstep.trans hts, le_refl t⟩
  · rcases hstep with ⟨t0, ht0, hnew, hlt⟩
    rw [hts] at ht0
    cases Option.some.inj ht0
    exact ⟨cp * (1 - cfg.trail_gap_pct), hnew, hlt.le⟩

/-- Helper: the trail stop after any sequence of `update_position` calls
is at least the initial one. -/
theorem foldl_trail_stop_mono (cfg : PosConfig) (ps : List ℚ)
    (p : Position) (t : ℚ) (hact : p.trailing_active = true)
    (hts : p.trailing_stop = some t) :
    ∃ t', (List.foldl (updatePosition cfg) p ps).trailing_stop = some t' ∧
      t ≤ t' := by
  induction ps generalizing p t with
  | nil => exact ⟨t, hts, le_refl t⟩
  | cons cp ps ih =>
      obtain ⟨t1, h1, h12⟩ := updatePosition_trail_stop_le cfg p cp t hact hts
      obtain ⟨t', h', h1'⟩ := ih (updatePosition cfg p cp) t1
        (updatePosition_active_step cfg p cp hact).1 h1
      exact ⟨t', by simpa using h', h12.trans h1'⟩

/-- C9: for a position with trailing active, each `update_position` call
either leaves the trail stop unchanged or replaces it with the strictly
larger `current_price * (1 - trail_gap_pct)`, and over any sequence of
calls the stored trail stop is monotonically non-decreasing. -/
theorem c9_trail_stop_monotone (cfg : PosConfig) (p : Position)
    (hact : p.trailing_active = true) :
    (∀ cp : ℚ,
      (updatePosition cfg p cp).trailing_stop = p.trailing_stop ∨
      ∃ t, p.trailing_stop = some t ∧
        (updatePosition cfg p cp).trailing_stop =
          some (cp * (1 - cfg.trail_gap_pct)) ∧
        t < cp * (1 - cfg.trail_gap_pct)) ∧
    (∀ (ps : List ℚ) (t : ℚ), p.trailing_stop = some t →
      ∃ t', (List.foldl (updatePosition cfg) p ps).trailing_stop = some t' ∧
        t ≤ t') :=
  ⟨fun cp => (updatePosition_active_step cfg p cp hact).2,
   fun ps t hts => foldl_trail_stop_mono cfg ps p t hact hts⟩

/-- C9, witness: the position trailing at 95, updated through prices 120
then 118 with a 5% gap, ends with a trail stop of at least 95. -/
theorem c9_trail_stop_monotone_witness :
    ∃ t', (List.foldl (updatePosition posCfgFrac) c9Pos
      [120, 118]).trailing_stop = some t' ∧ (95 : ℚ) ≤ t' :=
  (c9_trail_stop_monotone posCfgFrac c9Pos rfl).2 [120, 118] 95 rfl

/-- C6: publishing an event with a fresh idempotency key succeeds,
appends it to the durable log and hands it to handlers exactly once; a
second event published with the same key fails with `DuplicateEvent` and
changes nothing — it is neither logged nor delivered. -/
theorem c6_duplicate_event (st : EventBusState) (e1 e2 : MEvent)
    (hfresh : e1.idempotency_key ∉ st.processed_events)
    (hkey : e2.idempotency_key = e1.idempotency_key)
    (hq : st.queue.count e1 = 0) :
    (publish st e1).1 = Except.ok () ∧
    (publish st e1).2.event_log = st.event_log ++ [e1] ∧
    (publish st e1).2.queue = st.queue ++ [e1] ∧
    deliveriesOf (publish st e1).2 e1 = 1 ∧
    (publish (publish st e1).2 e2).1 =
      Except.error (BusError.duplicateEvent e2.idempotency_key) ∧
    (publish (publish st e1).2 e2).2 = (publish st e1).2 := by
  refine ⟨?_, ?_, ?_, ?_, ?_, ?_⟩ <;>
    simp [publish, deliveriesOf, hfresh, hkey, List.count_append, hq]

/-- C6, witness: on the empty bus, `e1w` (key "k") publishes and is
delivered once; `e2w` (same key, different payload) is rejected and the
state is unchanged. -/
theorem c6_duplicate_event_witness :
    (publish busSt0 e1w).1 = Except.ok () ∧
    (publish busSt0 e1w).2.event_log = busSt0.event_log ++ [e1w] ∧
    (publish busSt0 e1w).2.queue = busSt0.queue ++ [e1w] ∧
    deliveriesOf (publish busSt0 e1w).2 e1w = 1 ∧
    (publish (publish busSt0 e1w).2 e2w).1 =
      Except.error (BusError.duplicateEvent e2w.idempotency_key) ∧
    (publish (publish busSt0 e1w).2 e2w).2 = (publish busSt0 e1w).2 :=
  c6_duplicate_event busSt0 e1w e2w (by simp [busSt0, e1w]) rfl rfl

/-- Helper: the retry loop never touches the UUID counter. -/
theorem placeAttempts_next_uuid (br : Nat → Option Nat) (cfg : OMConfig)
    (ip : ℚ) (key : String) (oid : Nat) :
    ∀ (fuel attempt : Nat) (ord : Order) (cp : ℚ) (st : OMState),
      (placeAttempts br cfg ip key oid ord cp attempt fuel st).2.next_uuid =
        st.next_uuid := by
  intro fuel
  induction fuel with
  | zero =>
      intro attempt ord cp st
      unfold placeAttempts
      rcases hbr : br st.broker_calls with _ | b <;> simp [hbr]
  | succ n ih =>
      intro attempt ord cp st
      unfold placeAttempts
      rcases hbr : br st.broker_calls with _ | b <;> simp [hbr]
      exact ih _ _ _ _

/-- Helper: every pass through the retry loop calls the broker at least
once, so the broker-invocation counter strictly exceeds any prior lower
bound. -/
theorem placeAttempts_broker_called (br : Nat → Option Nat)
    (cfg : OMConfig) (ip : ℚ) (key : String) (oid : Nat) :
    ∀ (fuel attempt : Nat) (ord : Order) (cp : ℚ) (st : OMState) (n : Nat),
      n ≤ st.broker_calls →
      n < (placeAttempts br cfg ip key oid ord cp attempt fuel st).2.broker_calls := by
  intro fuel
  induction fuel with
  | zero =>
      intro attempt ord cp st n hn
      unfold placeAttempts
      rcases hbr : br st.broker_calls with _ | b <;> simp [hbr] <;>
        exact Nat.lt_succ_of_le hn
  | succ m ih =>
      intro attempt ord cp st n hn
      unfold placeAttempts
      rcases hbr : br st.broker_calls with _ | b <;> simp [hbr]
      · exact ih _ _ _ _ _ (Nat.le_succ_of_le hn)
      · exact Nat.lt_succ_of_le hn

/-- Helper: if the retry loop fails, the idempotency tracker is left
untouched. -/
theorem placeAttempts_error_intents (br : Nat → Option Nat)
    (cfg : OMConfig) (ip : ℚ) (key : String) (oid : Nat) :
    ∀ (fuel attempt : Nat) (ord : Order) (cp : ℚ) (st : OMState) (e : OMError),
      (placeAttempts br cfg ip key oid ord cp attempt fuel st).1 =
        Except.error e →
      (placeAttempts br cfg ip key oid ord cp attempt fuel st).2.processed_intents =
        st.processed_intents := by
  intro fuel
  induction fuel with
  | zero =>
      intro attempt ord cp st e
      unfold placeAttempts
      rcases hbr : br st.broker_calls with _ | b <;> simp [hbr]
  | succ n ih =>
      intro attempt ord cp st e
      unfold placeAttempts
      rcases hbr : br st.broker_calls with _ | b <;> simp [hbr]
      exact ih _ _ _ _ _

/-- Helper: if the retry loop succeeds, it returns the allocated order id
and records the idempotency key against it. -/
theorem placeAttempts_ok_recorded (br : Nat → Option Nat)
    (cfg : OMConfig) (ip : ℚ) (key : String) (oid : Nat) :
    ∀ (fuel attempt : Nat) (ord : Order) (cp : ℚ) (st : OMState) (r : Nat),
      (placeAttempts br cfg ip key oid ord cp attempt fuel st).1 =
        Except.ok r →
      r = oid ∧
      alookup key
        (placeAttempts br cfg ip key oid ord cp attempt fuel st).2.processed_intents =
          some oid := by
  intro fuel
  induction fuel with
  | zero =>
      intro attempt ord cp st r
      unfold placeAttempts
      rcases hbr : br st.broker_calls with _ | b <;> simp [hbr, alookup]
      exact fun h => h.symm
  | succ n ih =>
      intro attempt ord cp st r
      unfold placeAttempts
      rcases hbr : br st.broker_calls with _ | b <;> simp [hbr, alookup]
      · exact ih _ _ _ _ _
      · exact fun h => h.symm

/-- Helper: `place_order` on a recorded idempotency key returns the
recorded order id and leaves the state unchanged. -/
theorem place_order_known_key (br : Nat → Option Nat) (cfg : OMConfig)
    (key : String) (ip : ℚ) (st : OMState) (oid : Nat)
    (hl : alookup key st.processed_intents = some oid) :
    place_order br cfg key ip st = (Except.ok oid, st) := by
  unfold place_order
  rw [hl]

/-- Helper: `place_order` on an unknown key allocates the next UUID as
order id, stores the pending order and runs the retry loop. -/
theorem place_order_fresh_key (br : Nat → Option Nat) (cfg : OMConfig)
    (key : String) (ip : ℚ) (st : OMState)
    (hl : alookup key st.processed_intents = none) :
    place_order br cfg key ip st =
      placeAttempts br cfg ip key st.next_uuid
        { order_id := st.next_uuid, broker_order_id := none,
          status := OrderStatus.pending, attempts := 0, retry_count := 0,
          limit_price := ip, idempotency_key := key }
        ip 0 cfg.order_max_retries
        { st with
          next_uuid := st.next_uuid + 1
          orders := (st.next_uuid,
            { order_id := st.next_uuid, broker_order_id := none,
              status := OrderStatus.pending, attempts := 0, retry_count := 0,
              limit_price := ip, idempotency_key := key }) :: st.orders } := by
  unfold place_order
  rw [hl]

/-- Helper: a successful `place_order` records its idempotency key
against the returned order id. -/
theorem place_order_ok_recorded (br : Nat → Option Nat) (cfg : OMConfig)
    (key : String) (ip : ℚ) (st : OMState) (oid : Nat)
    (h : (place_order br cfg key ip st).1 = Except.ok oid) :
    alookup key (place_order br cfg key ip st).2.processed_intents =
      some oid := by
  rcases hl : alookup key st.processed_intents with _ | ex
  · rw [place_order_fresh_key br cfg key ip st hl] at h ⊢
    rcases placeAttempts_ok_recorded br cfg ip key st.next_uuid _ _ _ _ _ _ h
      with ⟨hr, hrec⟩
    rw [hr]
    exact hrec
  · rw [place_order_known_key br cfg key ip st ex hl] at h ⊢
    have hex : ex = oid := by simpa using h
    subst hex
    simpa using hl

/-- C5, counterexample: with one configured retry and a broker that
rejects the first attempt and accepts the second, two sequential
`place_order` calls with key "k" both return order id 0, yet the broker
has been invoked twice for that key — the first call already called it on
both attempts. -/
theorem c5_broker_called_twice_counterexample :
    (place_order retryBroker omCfg "k" 100 omSt0).1 = Except.ok 0 ∧
    (place_order retryBroker omCfg "k" 100
      (place_order retryBroker omCfg "k" 100 omSt0).2).1 = Except.ok 0 ∧
    (place_order retryBroker omCfg "k" 100
      (place_order retryBroker omCfg "k" 100 omSt0).2).2.broker_calls = 2 := by
  refine ⟨?_, ?_, ?_⟩ <;>
    simp [place_order, placeAttempts, alookup, retryBroker, omCfg, omSt0]

/-- C5, amended: if a `place_order` call returns order id `oid`, then a
second call with the same idempotency key returns the same `oid` and
leaves the order-manager state — in particular the broker-invocation
count and the stored order's `attempts` counter — completely unchanged:
the broker is not invoked at all on the replay. -/
theorem c5_place_order_replay (br : Nat → Option Nat) (cfg : OMConfig)
    (key : String) (ip : ℚ) (st : OMState) (oid : Nat)
    (h : (place_order br cfg key ip st).1 = Except.ok oid) :
    place_order br cfg key ip (place_order br cfg key ip st).2 =
      (Except.ok oid, (place_order br cfg key ip st).2) :=
  place_order_known_key br cfg key ip _ oid
    (place_order_ok_recorded br cfg key ip st oid h)

/-- C5, witness: with a broker that accepts immediately, replaying key
"k" returns order id 0 again without touching the state. -/
theorem c5_place_order_replay_witness :
    place_order okBroker omCfg "k" 100
        (place_order okBroker omCfg "k" 100 omSt0).2 =
      (Except.ok 0, (place_order okBroker omCfg "k" 100 omSt0).2) :=
  c5_place_order_replay okBroker omCfg "k" 100 omSt0 0
    (by simp [place_order, placeAttempts, alookup, okBroker, omCfg, omSt0])

/-- C10: if `place_order` on a fresh idempotency key exhausts all
attempts and fails, the key stays unrecorded and the UUID counter has
moved past the failed order's id; a subsequent call with the same key
invokes the broker again and, when it succeeds, returns the freshly
allocated order id — not the failed order's id `st.next_uuid`. -/
theorem c10_failed_key_unrecorded (br br2 : Nat → Option Nat)
    (cfg cfg2 : OMConfig) (key : String) (ip ip2 : ℚ) (st : OMState)
    (hfresh : alookup key st.processed_intents = none)
    (hfail : ∃ e, (place_order br cfg key ip st).1 = Except.error e) :
    alookup key (place_order br cfg key ip st).2.processed_intents = none ∧
    (place_order br cfg key ip st).2.next_uuid = st.next_uuid + 1 ∧
    (place_order br cfg key ip st).2.broker_calls <
      (place_order br2 cfg2 key ip2
        (place_order br cfg key ip st).2).2.broker_calls ∧
    ∀ oid,
      (place_order br2 cfg2 key ip2
        (place_order br cfg key ip st).2).1 = Except.ok oid →
      oid = st.next_uuid + 1 ∧ oid ≠ st.next_uuid := by
  obtain ⟨e, he⟩ := hfail
  rw [place_order_fresh_key br cfg key ip st hfresh] at he
  have hunrec :
      alookup key (place_order br cfg key ip st).2.processed_intents = none := by
    rw [place_order_fresh_key br cfg key ip st hfresh]
    rw [placeAttempts_error_intents br cfg ip key st.next_uuid _ _ _ _ _ e he]
    exact hfresh
  have huuid :
      (place_order br cfg key ip st).2.next_uuid = st.next_uuid + 1 := by
    rw [place_order_fresh_key br cfg key ip st hfresh]
    rw [placeAttempts_next_uuid]
  refine ⟨hunrec, huuid, ?_, ?_⟩
  · rw [place_order_fresh_key br2 cfg2 key ip2 _ hunrec]
    exact placeAttempts_broker_called br2 cfg2 ip2 key _ _ _ _ _ _ _ (Nat.le_refl _)
  · intro oid hok
    rw [place_order_fresh_key br2 cfg2 key ip2 _ hunrec] at hok
    rcases placeAttempts_ok_recorded br2 cfg2 ip2 key
      (place_order br cfg key ip st).2.next_uuid _ _ _ _ _ _ hok with ⟨hr, _⟩
    rw [hr, huuid]
    exact ⟨rfl, Nat.succ_ne_self st.next_uuid⟩

/-- C10, witness: with an always-failing broker and one retry, the key
"k" is unrecorded after the failed call, the counter advanced, and a
second call with an accepting broker invokes the broker again and
returns the fresh order id 1 ≠ 0. -/
theorem c10_failed_key_unrecorded_witness :
    alookup "k" (place_order failBroker omCfg "k" 100 omSt0).2.processed_intents
        = none ∧
    (place_order failBroker omCfg "k" 100 omSt0).2.next_uuid =
      omSt0.next_uuid + 1 ∧
    (place_order failBroker omCfg "k" 100 omSt0).2.broker_calls <
      (place_order okBroker omCfg "k" 100
        (place_order failBroker omCfg "k" 100 omSt0).2).2.broker_calls ∧
    ∀ oid,
      (place_order okBroker omCfg "k" 100
        (place_order failBroker omCfg "k" 100 omSt0).2).1 = Except.ok oid →
      oid = omSt0.next_uuid + 1 ∧ oid ≠ omSt0.next_uuid :=
  c10_failed_key_unrecorded failBroker okBroker omCfg omCfg "k" 100 100 omSt0
    rfl
    ⟨OMError.orderPlacementFailed,
      by simp [place_order, placeAttempts, alookup, failBroker, omCfg, omSt0]⟩

end Rustro
